import Mathlib

/-!
Verification of the kreatika payload multitenant plugin
(`src/plugin.ts`, `src/lib/helpers.ts`) via a shallow embedding.

JavaScript values are modelled by the mutual inductive `JVal` (numbers
restricted to integers, which is all this code ever produces for tenant
ids via `parseInt`); truthiness, nullish-ness and property access follow
the JavaScript semantics the source relies on.  Asynchronous calls are
collapsed to pure calls; the document store and delegate access rules are
passed in as functions.  Property access is modelled through the typed
contract of the source (reading a property of a primitive yields
`undefined`), and the places where the source can genuinely throw —
calling `.split` on a non-string cookie header inside
`getSelectedTenantFromCookie`'s `try` block — are modelled with `Except`.
-/

namespace MT

mutual

/-- A JavaScript value as used by the plugin: `undefined`, `null`,
booleans, (integer) numbers, strings, arrays and plain objects. -/
inductive JVal where
  | jundefined : JVal
  | jnull : JVal
  | jbool (b : Bool) : JVal
  | jnum (n : Int) : JVal
  | jstr (s : String) : JVal
  | jarr (xs : JList) : JVal
  | jobj (fields : JFields) : JVal
  deriving DecidableEq

/-- A list of JavaScript values (the payload of an array literal). -/
inductive JList where
  | nil : JList
  | cons (hd : JVal) (tl : JList) : JList
  deriving DecidableEq

/-- The fields of a JavaScript object literal, in insertion order. -/
inductive JFields where
  | nil : JFields
  | cons (k : String) (v : JVal) (tl : JFields) : JFields
  deriving DecidableEq

end

/-- Build a `JList` from a Lean list (notation helper for statements). -/
def jlist : List JVal → JList
  | [] => .nil
  | v :: vs => .cons v (jlist vs)

/-- Length of a `JList` (JavaScript `.length`). -/
def JList.len : JList → Nat
  | .nil => 0
  | .cons _ tl => 1 + tl.len

/-- `Array.prototype.map` with a value-level function. -/
def JList.mapJ (f : JVal → JVal) : JList → JList
  | .nil => .nil
  | .cons hd tl => .cons (f hd) (tl.mapJ f)

/-- `Array.prototype.filter` with a boolean predicate. -/
def JList.filterJ (p : JVal → Bool) : JList → JList
  | .nil => .nil
  | .cons hd tl => if p hd then .cons hd (tl.filterJ p) else tl.filterJ p

/-- JavaScript truthiness: `undefined`, `null`, `false`, `0` and `""` are
falsy; arrays and objects are always truthy. -/
def truthy : JVal → Bool
  | .jundefined => false
  | .jnull => false
  | .jbool b => b
  | .jnum n => n != 0
  | .jstr s => s != ""
  | .jarr _ => true
  | .jobj _ => true

/-- `undefined` or `null` (the values skipped by `??` and rejected by an
`!== undefined && !== null` test). -/
def nullish : JVal → Bool
  | .jundefined => true
  | .jnull => true
  | _ => false

/-- Field lookup in an object literal; a missing key reads as `undefined`. -/
def jget : JFields → String → JVal
  | .nil, _ => .jundefined
  | .cons k v tl, key => if k == key then v else jget tl key

/-- Property access `v.k` through the typed contract of the source:
objects yield their field, everything else reads as `undefined`. -/
def jprop : JVal → String → JVal
  | .jobj fields, k => jget fields k
  | _, _ => .jundefined

/-- The nullish-coalescing operator `a ?? b`. -/
def jcoalesce (a b : JVal) : JVal :=
  if nullish a then b else a

/-- Embedding of `extractTenantId` (src/lib/helpers.ts): falsy input maps
to `null`; raw numbers and strings are returned unchanged; objects are
probed at `id ?? _id ?? ID`; anything else maps to `null`. -/
def extractTenantId (tenant : JVal) : JVal :=
  if truthy tenant = false then .jnull
  else
    match tenant with
    | .jnum n => .jnum n
    | .jstr s => .jstr s
    | .jobj fields =>
        let i := jcoalesce (jcoalesce (jget fields "id") (jget fields "_id")) (jget fields "ID")
        if nullish i then .jnull else i
    | _ => .jnull

/-! ### JavaScript string primitives

`String.prototype.split`, `trim`, `startsWith` and `parseInt`, modelled
over the character list of a string. -/

/-- ASCII whitespace removed by `trim` (cookie data never carries the more
exotic Unicode spaces). -/
def isSpaceChar (c : Char) : Bool :=
  c == ' ' || c == '\t' || c == '\n' || c == '\r'

/-- `s.split(sep)` for a one-character separator. -/
def splitOnChar (sep : Char) : List Char → List (List Char)
  | [] => [[]]
  | c :: cs =>
    let r := splitOnChar sep cs
    if c == sep then [] :: r
    else
      match r with
      | h :: t => (c :: h) :: t
      | [] => [[c]]

/-- `String.prototype.split` with a one-character separator. -/
def jsSplit (s : String) (sep : Char) : List String :=
  (splitOnChar sep s.data).map (fun cs => String.mk cs)

/-- `String.prototype.trim`. -/
def jsTrim (s : String) : String :=
  String.mk (((s.data.dropWhile isSpaceChar).reverse.dropWhile isSpaceChar).reverse)

/-- `s.startsWith(pre)`. -/
def jsStartsWith (s pre : String) : Bool :=
  pre.data.isPrefixOf s.data

/-- Numeric value of a run of decimal digits. -/
def digitsVal (ds : List Char) : Nat :=
  ds.foldl (fun a c => a * 10 + (c.toNat - '0'.toNat)) 0

/-- Split an optional leading `-` or `+` sign off a character list. -/
def splitSign : List Char → Int × List Char
  | '-' :: r => (-1, r)
  | '+' :: r => (1, r)
  | r => (1, r)

/-- JavaScript `parseInt(s, 10)`: skip leading whitespace, take an
optional sign and then the longest run of leading decimal digits; `none`
models `NaN` (no digits at all). -/
def parseIntJS (s : String) : Option Int :=
  let signRest := splitSign (s.data.dropWhile isSpaceChar)
  let ds := signRest.2.takeWhile Char.isDigit
  if ds.isEmpty then none
  else some (signRest.1 * (digitsVal ds : Int))

/-- `isNaN(parseInt(value, 10)) ? value : numValue`: the value a matched
raw cookie string is converted to. -/
def parsedTenantValue (value : String) : JVal :=
  match parseIntJS value with
  | some n => .jnum n
  | none => .jstr value

/-! ### The request object and `getSelectedTenantFromCookie` -/

/-- The inbound request, restricted to the parts the plugin reads.  Each
`Option` models presence/absence of the corresponding cookie-access
shape:
* `contextSelectedTenant` — `req.context.selectedTenant` (`none` =
  `undefined`; note `some .jnull` is a *defined* null);
* `headersCookie` — the `req.headers.cookie` property (a `JVal`, since a
  truthy non-string here makes the source's `.split` call throw);
* `cookies` — the pre-parsed `req.cookies` mapping, string-valued;
* `headersGet` — `some v` means `req.headers.get` exists and
  `req.headers.get('cookie')` returns `v` (`.jnull` when the header is
  absent); `none` means there is no `get` method. -/
structure Req where
  user : JVal
  contextSelectedTenant : Option JVal
  headersCookie : Option JVal
  cookies : Option (List (String × String))
  headersGet : Option JVal

/-- The shared header-scanning step of methods 2 and 4: split the raw
`Cookie` header on `;`, find the first segment whose trimmed form starts
with `cookieName=`, and take the trimmed text after the first `=`. -/
def cookieLookupInHeader (header : String) (cookieName : String) : Option String :=
  match (jsSplit header ';').find? (fun c => jsStartsWith (jsTrim c) (cookieName ++ "=")) with
  | none => none
  | some tenantCookie => ((jsSplit tenantCookie '=').get? 1).map jsTrim

/-- What methods 2 and 4 do with a string cookie header: `some v` means
`return v`, `none` means fall through to the next method (no matching
segment, or an empty or `"all"` value). -/
def tryHeaderString (s : String) (cookieName : String) : Option JVal :=
  match cookieLookupInHeader s cookieName with
  | some v => if v != "" && v != "all" then some (parsedTenantValue v) else none
  | none => none

/-- The body of `getSelectedTenantFromCookie` (src/lib/helpers.ts) before
its `try`/`catch`: methods 1–4 in order, `.error ()` where the JavaScript
would throw (calling `.split` on a truthy non-string header). -/
def getSelectedTenantBody (req : Req) (cookieName : String) : Except Unit JVal :=
  -- Method 1: req.context.selectedTenant, returned verbatim when defined
  match req.contextSelectedTenant with
  | some v => .ok v
  | none =>
    -- Method 2: parse from req.headers.cookie
    let m2 : Except Unit (Option JVal) :=
      match req.headersCookie with
      | some hv =>
        if truthy hv then
          match hv with
          | .jstr s => .ok (tryHeaderString s cookieName)
          | _ => .error ()
        else .ok none
      | none => .ok none
    match m2 with
    | .error e => .error e
    | .ok (some v) => .ok v
    | .ok none =>
      -- Method 3: req.cookies[cookieName] (no trimming here)
      let m3 : Option JVal :=
        match req.cookies with
        | some cs =>
          match cs.find? (fun p => p.1 == cookieName) with
          | some p =>
            if p.2 != "" then
              if p.2 != "all" then some (parsedTenantValue p.2) else none
            else none
          | none => none
        | none => none
      match m3 with
      | some v => .ok v
      | none =>
        -- Method 4: headers.get('cookie'), then the same scan as method 2
        let m4 : Except Unit (Option JVal) :=
          match req.headersGet with
          | some hv =>
            if truthy hv then
              match hv with
              | .jstr s => .ok (tryHeaderString s cookieName)
              | _ => .error ()
            else .ok none
          | none => .ok none
        match m4 with
        | .error e => .error e
        | .ok (some v) => .ok v
        | .ok none => .ok .jnull

/-- Embedding of `getSelectedTenantFromCookie`: the body wrapped in the
source's `try`/`catch (return null)`. -/
def getSelectedTenantFromCookie (req : Req) (cookieName : String) : JVal :=
  match getSelectedTenantBody req cookieName with
  | .ok v => v
  | .error _ => .jnull

/-- The default cookie name. -/
def defaultCookieName : String := "payload-selected-tenant"

/-! ### Access rules and the four access functions of `plugin.ts` -/

/-- The value an access rule evaluates to, per the host framework's
access-rule convention: a boolean, or a structured `Where` object.
`typeof r === 'object'` distinguishes the second form (`awhere .jnull`
models a delegate returning `null`, which JavaScript also classifies as
`'object'`). -/
inductive AccessResult where
  | abool (b : Bool) : AccessResult
  | awhere (w : JVal) : AccessResult
  deriving DecidableEq

/-- An entry of a collection's `access` config, as the source inspects
it: `undefined`, a static (non-function) value, or a function of the
request.  (The source passes the whole `args` object through; the only
part our embedded rules ever read is `req`, so the function takes `Req`.) -/
inductive AccessRule where
  | missing : AccessRule
  | value (r : AccessResult) : AccessRule
  | func (f : Req → AccessResult) : AccessRule

/-- Embedding of `extractUserTenantIds` (src/plugin.ts): `[]` unless
`user.tenants` is a (truthy) array, else each entry's `.tenant` is
normalized with `extractTenantId` and `null` results are dropped. -/
def extractUserTenantIds (user : JVal) : JList :=
  let tenants := jprop user "tenants"
  if truthy tenants = false then .nil
  else
    match tenants with
    | .jarr ts => (ts.mapJ (fun t => extractTenantId (jprop t "tenant"))).filterJ
        (fun i => i != JVal.jnull)
    | _ => .nil

/-- The filter object `{ [fieldName.tenant]: { equals: t } }`. -/
def tenantEqFilter (fieldName : String) (t : JVal) : JVal :=
  .jobj (.cons (fieldName ++ ".tenant") (.jobj (.cons "equals" t .nil)) .nil)

/-- The filter object `{ [fieldName.tenant]: { in: ts } }`. -/
def tenantInFilter (fieldName : String) (ts : JList) : JVal :=
  .jobj (.cons (fieldName ++ ".tenant") (.jobj (.cons "in" (.jarr ts) .nil)) .nil)

/-- The merged filter `{ and: [f, w] }`. -/
def andFilter (f w : JVal) : JVal :=
  .jobj (.cons "and" (.jarr (.cons f (.cons w .nil))) .nil)

/-- Shared shape of the source's filter-merging step: if the original
rule is a function whose result is classified `'object'` by `typeof`,
return `{and: [filter, result]}`; otherwise return the filter alone. -/
def mergeWithOriginal (filter : JVal) (orig : AccessRule) (req : Req) : AccessResult :=
  match orig with
  | .func f =>
    match f req with
    | .awhere w => .awhere (andFilter filter w)
    | .abool _ => .awhere filter
  | _ => .awhere filter

/-- The source's fallback to the original rule: call it when it is a
function, return it verbatim when it is a static value, else the given
default. -/
def fallbackToOriginal (orig : AccessRule) (req : Req) (dflt : Bool) : AccessResult :=
  match orig with
  | .func f => f req
  | .value r => r
  | .missing => .abool dflt

/-- Embedding of the `create` access closure installed by
`multiTenantPlugin`: elevated users fall back to the original rule with
default allow; everyone else falls back to the original rule with
default deny — tenant memberships are never consulted. -/
def createAccess (hasAll : JVal → Bool) (orig : AccessRule) (req : Req) : AccessResult :=
  if hasAll req.user then fallbackToOriginal orig req true
  else fallbackToOriginal orig req false

/-- Embedding of the `read`/`update`/`delete` access closures installed
by `multiTenantPlugin` (the three closures are textually identical up to
which original rule they consult).  Elevated users are filtered by the
truthy cookie selection if any, else fall back to the original rule with
default allow; other users are filtered by their memberships, or denied
when they have none. -/
def rudAccess (hasAll : JVal → Bool) (cookieName fieldName : String)
    (orig : AccessRule) (req : Req) : AccessResult :=
  if hasAll req.user then
    let selectedTenant := getSelectedTenantFromCookie req cookieName
    if truthy selectedTenant then
      mergeWithOriginal (tenantEqFilter fieldName selectedTenant) orig req
    else
      fallbackToOriginal orig req true
  else
    let userTenantIds := extractUserTenantIds req.user
    if userTenantIds.len > 0 then
      mergeWithOriginal (tenantInFilter fieldName userTenantIds) orig req
    else
      .abool false

/-- The installed `read` access function. -/
def readAccess (hasAll : JVal → Bool) (cookieName fieldName : String)
    (orig : AccessRule) (req : Req) : AccessResult :=
  rudAccess hasAll cookieName fieldName orig req

/-- The installed `update` access function. -/
def updateAccess (hasAll : JVal → Bool) (cookieName fieldName : String)
    (orig : AccessRule) (req : Req) : AccessResult :=
  rudAccess hasAll cookieName fieldName orig req

/-- The installed `delete` access function. -/
def deleteAccess (hasAll : JVal → Bool) (cookieName fieldName : String)
    (orig : AccessRule) (req : Req) : AccessResult :=
  rudAccess hasAll cookieName fieldName orig req

/-- The plugin's default elevated-access predicate
`(user) => user?.role === 'super-admin'`. -/
def defaultHasAll (user : JVal) : Bool :=
  jprop user "role" == .jstr "super-admin"

/-! ### `getUserTenantIds` (src/lib/helpers.ts) -/

/-- `Array.isArray`. -/
def isArray : JVal → Bool
  | .jarr _ => true
  | _ => false

/-- Embedding of `getUserTenantIds`: the document store's
`findByID({collection:'users', id: userId, depth: 2})` call is passed in
as a function of the user id whose `Except` error case models a
throw/rejection; the source's `try`/`catch` turns that into `[]`. -/
def getUserTenantIds (userId : JVal) (findByID : JVal → Except Unit JVal) : JList :=
  match findByID userId with
  | .error _ => .nil
  | .ok userDoc =>
    if truthy userDoc && truthy (jprop userDoc "tenants")
        && isArray (jprop userDoc "tenants") then
      match jprop userDoc "tenants" with
      | .jarr ts => (ts.mapJ (fun t => extractTenantId (jprop t "tenant"))).filterJ
          (fun i => i != JVal.jnull)
      | _ => .nil
    else .nil

/-! ### The plugin's config transformation (`multiTenantPlugin`) -/

/-- The per-collection plugin option `{ fieldName?: string }`. -/
structure PluginCollectionCfg where
  fieldName : Option String

/-- `collectionConfig.fieldName || 'tenants'` (`||`, so an empty string
also falls back to the default). -/
def fieldNameOf (cc : PluginCollectionCfg) : String :=
  match cc.fieldName with
  | some s => if s == "" then "tenants" else s
  | none => "tenants"

/-- The four per-operation entries of a collection's `access` config,
plus `rest` for any other keys carried along by the `...originalAccess`
spread. -/
structure AccessRules where
  create : AccessRule
  read : AccessRule
  update : AccessRule
  delete : AccessRule
  rest : JVal

/-- A field definition: either a host-supplied field (opaque data) or
the tenants array field the plugin injects, whose admin condition shows
it only to elevated users. -/
inductive FieldDef where
  | host (v : JVal) : FieldDef
  | tenantArray (name : String) (relationTo : String) (condition : JVal → Bool) : FieldDef

/-- A collection entry of the host config: slug, fields, access rules,
and `rest` for every other property carried along by the
`...collection` spread. -/
structure CollectionEntry where
  slug : String
  fields : List FieldDef
  access : AccessRules
  rest : JVal

/-- The host config: its collections plus every other property. -/
structure Config where
  collections : List CollectionEntry
  rest : JVal

/-- The plugin options object, with `none` meaning the key is absent so
the destructuring default applies. -/
structure MultiTenantPluginOptions where
  tenantsSlug : Option String
  collections : Option (List (String × PluginCollectionCfg))
  userHasAccessToAllTenants : Option (JVal → Bool)
  cookieName : Option String
  authCollectionSlug : Option String

/-- The per-collection body of the `config.collections.map`: collections
whose slug is not configured are returned unchanged; configured ones get
the injected tenants field appended and the four access closures
installed over the original rules. -/
def applyToCollection (tenantsSlug cookieName : String) (hasAll : JVal → Bool)
    (ccs : List (String × PluginCollectionCfg)) (collection : CollectionEntry) :
    CollectionEntry :=
  match ccs.find? (fun p => p.1 == collection.slug) with
  | none => collection
  | some p =>
    let fieldName := fieldNameOf p.2
    let originalAccess := collection.access
    { collection with
      fields := collection.fields ++
        [.tenantArray fieldName tenantsSlug (fun user => hasAll user)],
      access :=
        { originalAccess with
          create := .func (fun req => createAccess hasAll originalAccess.create req)
          read := .func (fun req =>
            rudAccess hasAll cookieName fieldName originalAccess.read req)
          update := .func (fun req =>
            rudAccess hasAll cookieName fieldName originalAccess.update req)
          delete := .func (fun req =>
            rudAccess hasAll cookieName fieldName originalAccess.delete req) } }

/-- Embedding of `multiTenantPlugin`: apply the destructuring defaults
and map every collection of the incoming config through
`applyToCollection`; all other config properties are preserved by the
spread. -/
def multiTenantPlugin (pluginOptions : MultiTenantPluginOptions)
    (incomingConfig : Config) : Config :=
  let tenantsSlug := pluginOptions.tenantsSlug.getD "tenants"
  let collections := pluginOptions.collections.getD []
  let hasAll := pluginOptions.userHasAccessToAllTenants.getD defaultHasAll
  let cookieName := pluginOptions.cookieName.getD defaultCookieName
  { incomingConfig with
    collections := incomingConfig.collections.map
      (applyToCollection tenantsSlug cookieName hasAll collections) }

/-! ### Smoke tests on concrete inputs -/

example : extractTenantId (.jnum 0) = .jnull := by decide
example : extractTenantId (.jnum 5) = .jnum 5 := by decide
example : extractTenantId (.jobj (.cons "id" (.jnum 5) .nil)) = .jnum 5 := by decide
example : extractTenantId (.jobj (.cons "_id" (.jnum 5) .nil)) = .jnum 5 := by decide
example : extractTenantId (.jobj .nil) = .jnull := by decide

example : parseIntJS "42" = some 42 := by decide
example : parseIntJS "42abc" = some 42 := by decide
example : parseIntJS "-7" = some (-7) := by decide
example : parseIntJS "3.5" = some 3 := by decide
example : parseIntJS "tenant-abc" = none := by decide
example : parseIntJS "" = none := by decide

example :
    getSelectedTenantFromCookie
      ⟨.jnull, none, some (.jstr "payload-selected-tenant=12; other=x"), none, none⟩
      defaultCookieName = .jnum 12 := by decide

example :
    getSelectedTenantFromCookie
      ⟨.jnull, none, some (.jstr "payload-selected-tenant=tenant-abc"), none, none⟩
      defaultCookieName = .jstr "tenant-abc" := by decide

example :
    getSelectedTenantFromCookie ⟨.jnull, some (.jstr "all"), none, none, none⟩
      defaultCookieName = .jstr "all" := by decide

example :
    getSelectedTenantFromCookie ⟨.jnull, none, none, none, none⟩
      defaultCookieName = .jnull := by decide

-- Spec scenario: a tenant user with tenants [7, 9] reading a configured
-- collection gets the membership filter.
example :
    readAccess defaultHasAll defaultCookieName "tenants" .missing
      ⟨.jobj (.cons "role" (.jstr "tenant-user")
        (.cons "tenants" (.jarr (jlist [.jobj (.cons "tenant" (.jnum 7) .nil),
          .jobj (.cons "tenant" (.jnum 9) .nil)])) .nil)),
       none, none, none, none⟩ =
    .awhere (tenantInFilter "tenants" (jlist [.jnum 7, .jnum 9])) := by decide

-- Spec scenario: a super-admin with cookie header
-- "payload-selected-tenant=12; other=x" gets the equals filter.
example :
    readAccess defaultHasAll defaultCookieName "tenants" .missing
      ⟨.jobj (.cons "role" (.jstr "super-admin") .nil),
       none, some (.jstr "payload-selected-tenant=12; other=x"), none, none⟩ =
    .awhere (tenantEqFilter "tenants" (.jnum 12)) := by decide

/-! ### Helper lemmas about the installed access closures -/

/-- Non-elevated users with an empty resolved tenant set are denied by
the shared read/update/delete closure, whatever the original rule is. -/
theorem rudAccess_nonelevated_empty (hasAll : JVal → Bool) (cookieName fieldName : String)
    (req : Req) (orig : AccessRule) (h1 : hasAll req.user = false)
    (h2 : extractUserTenantIds req.user = .nil) :
    rudAccess hasAll cookieName fieldName orig req = .abool false := by
  simp [rudAccess, h1, h2, JList.len]

/-- Non-elevated users with a non-empty resolved tenant set get the
membership filter from the shared read/update/delete closure, with a
structured function-delegate result `AND`-ed in and a boolean one
ignored. -/
theorem rudAccess_nonelevated_nonempty (hasAll : JVal → Bool) (cookieName fieldName : String)
    (req : Req) (ts : JList) (h1 : hasAll req.user = false)
    (h2 : extractUserTenantIds req.user = ts) (h3 : 0 < ts.len) :
    (rudAccess hasAll cookieName fieldName .missing req =
      .awhere (tenantInFilter fieldName ts))
    ∧ (∀ r, rudAccess hasAll cookieName fieldName (.value r) req =
      .awhere (tenantInFilter fieldName ts))
    ∧ (∀ f w, f req = .awhere w →
      rudAccess hasAll cookieName fieldName (.func f) req =
        .awhere (andFilter (tenantInFilter fieldName ts) w))
    ∧ (∀ f b, f req = .abool b →
      rudAccess hasAll cookieName fieldName (.func f) req =
        .awhere (tenantInFilter fieldName ts)) := by
  refine ⟨?_, ?_, ?_, ?_⟩
  · simp [rudAccess, h1, h2, h3, mergeWithOriginal]
  · intro r
    simp [rudAccess, h1, h2, h3, mergeWithOriginal]
  · intro f w hf
    simp [rudAccess, h1, h2, h3, mergeWithOriginal, hf]
  · intro f b hf
    simp [rudAccess, h1, h2, h3, mergeWithOriginal, hf]

/-- Elevated users whose cookie selection is truthy get the equality
filter from the shared read/update/delete closure, with a structured
function-delegate result `AND`-ed in and a boolean one ignored. -/
theorem rudAccess_elevated_selected (hasAll : JVal → Bool) (cookieName fieldName : String)
    (req : Req) (v : JVal) (h1 : hasAll req.user = true)
    (h2 : getSelectedTenantFromCookie req cookieName = v) (h3 : truthy v = true) :
    (rudAccess hasAll cookieName fieldName .missing req =
      .awhere (tenantEqFilter fieldName v))
    ∧ (∀ r, rudAccess hasAll cookieName fieldName (.value r) req =
      .awhere (tenantEqFilter fieldName v))
    ∧ (∀ f w, f req = .awhere w →
      rudAccess hasAll cookieName fieldName (.func f) req =
        .awhere (andFilter (tenantEqFilter fieldName v) w))
    ∧ (∀ f b, f req = .abool b →
      rudAccess hasAll cookieName fieldName (.func f) req =
        .awhere (tenantEqFilter fieldName v)) := by
  refine ⟨?_, ?_, ?_, ?_⟩
  · simp [rudAccess, h1, h2, h3, mergeWithOriginal]
  · intro r
    simp [rudAccess, h1, h2, h3, mergeWithOriginal]
  · intro f w hf
    simp [rudAccess, h1, h2, h3, mergeWithOriginal, hf]
  · intro f b hf
    simp [rudAccess, h1, h2, h3, mergeWithOriginal, hf]

/-- Elevated users whose cookie selection is falsy (absent, `null`, `0`
or `""`) fall back to the original rule, defaulting to allow. -/
theorem rudAccess_elevated_unselected (hasAll : JVal → Bool) (cookieName fieldName : String)
    (req : Req) (h1 : hasAll req.user = true)
    (h2 : truthy (getSelectedTenantFromCookie req cookieName) = false) :
    (rudAccess hasAll cookieName fieldName .missing req = .abool true)
    ∧ (∀ r, rudAccess hasAll cookieName fieldName (.value r) req = r)
    ∧ (∀ f, rudAccess hasAll cookieName fieldName (.func f) req = f req) := by
  refine ⟨?_, ?_, ?_⟩
  · simp [rudAccess, h1, h2, fallbackToOriginal]
  · intro r
    simp [rudAccess, h1, h2, fallbackToOriginal]
  · intro f
    simp [rudAccess, h1, h2, fallbackToOriginal]

/-! ### C1 -/

/-- C1 (amended): for a non-elevated user with an empty resolved tenant
set, the read, update and delete access functions return Deny-All
whatever the delegate rule is; the create access function returns
Deny-All only when no delegate create rule exists — with a delegate rule
present, create defers to it entirely (memberships are never consulted
by create). -/
theorem C1_empty_memberships_deny (hasAll : JVal → Bool) (cookieName fieldName : String)
    (req : Req) (h1 : hasAll req.user = false)
    (h2 : extractUserTenantIds req.user = .nil) :
    (∀ orig, readAccess hasAll cookieName fieldName orig req = .abool false)
    ∧ (∀ orig, updateAccess hasAll cookieName fieldName orig req = .abool false)
    ∧ (∀ orig, deleteAccess hasAll cookieName fieldName orig req = .abool false)
    ∧ createAccess hasAll .missing req = .abool false
    ∧ (∀ r, createAccess hasAll (.value r) req = r)
    ∧ (∀ f, createAccess hasAll (.func f) req = f req) := by
  refine ⟨?_, ?_, ?_, ?_, ?_, ?_⟩
  · intro orig
    exact rudAccess_nonelevated_empty hasAll cookieName fieldName req orig h1 h2
  · intro orig
    exact rudAccess_nonelevated_empty hasAll cookieName fieldName req orig h1 h2
  · intro orig
    exact rudAccess_nonelevated_empty hasAll cookieName fieldName req orig h1 h2
  · simp [createAccess, h1, fallbackToOriginal]
  · intro r
    simp [createAccess, h1, fallbackToOriginal]
  · intro f
    simp [createAccess, h1, fallbackToOriginal]

/-- C1 (counterexample): a non-elevated user with no tenant memberships
is *not* denied creation when the collection has a static `create: true`
delegate rule — the create closure returns the delegate's value. -/
theorem C1_counterexample_create_follows_delegate :
    extractUserTenantIds (JVal.jnull) = .nil
    ∧ createAccess (fun _ => false) (.value (.abool true))
        ⟨.jnull, none, none, none, none⟩ = .abool true
    ∧ AccessResult.abool true ≠ AccessResult.abool false := by
  refine ⟨by decide, by decide, by decide⟩

/-- C1 (witness): the amended theorem applied to a concrete non-elevated
user with no memberships. -/
theorem C1_witness :
    readAccess (fun _ => false) defaultCookieName "tenants" .missing
      ⟨.jnull, none, none, none, none⟩ = .abool false :=
  (C1_empty_memberships_deny (fun _ => false) defaultCookieName "tenants"
    ⟨.jnull, none, none, none, none⟩ rfl rfl).1 .missing

/-! ### C3 -/

/-- C3 (confirmed): a non-elevated user whose resolved tenant set is
`[t1, t2]` gets exactly the membership `in`-filter from read, update and
delete; a function delegate whose result is structured is `AND`-ed in,
and a boolean delegate result is ignored. -/
theorem C3_nonelevated_membership_filter (hasAll : JVal → Bool)
    (cookieName fieldName : String) (req : Req) (t1 t2 : JVal)
    (h1 : hasAll req.user = false)
    (h2 : extractUserTenantIds req.user = jlist [t1, t2]) :
    (readAccess hasAll cookieName fieldName .missing req =
        .awhere (tenantInFilter fieldName (jlist [t1, t2]))
      ∧ updateAccess hasAll cookieName fieldName .missing req =
        .awhere (tenantInFilter fieldName (jlist [t1, t2]))
      ∧ deleteAccess hasAll cookieName fieldName .missing req =
        .awhere (tenantInFilter fieldName (jlist [t1, t2])))
    ∧ (∀ r, readAccess hasAll cookieName fieldName (.value r) req =
        .awhere (tenantInFilter fieldName (jlist [t1, t2])))
    ∧ (∀ f w, f req = .awhere w →
        readAccess hasAll cookieName fieldName (.func f) req =
          .awhere (andFilter (tenantInFilter fieldName (jlist [t1, t2])) w)
        ∧ updateAccess hasAll cookieName fieldName (.func f) req =
          .awhere (andFilter (tenantInFilter fieldName (jlist [t1, t2])) w)
        ∧ deleteAccess hasAll cookieName fieldName (.func f) req =
          .awhere (andFilter (tenantInFilter fieldName (jlist [t1, t2])) w))
    ∧ (∀ f b, f req = .abool b →
        readAccess hasAll cookieName fieldName (.func f) req =
          .awhere (tenantInFilter fieldName (jlist [t1, t2]))) := by
  have h := rudAccess_nonelevated_nonempty hasAll cookieName fieldName req
    (jlist [t1, t2]) h1 h2 (by simp [jlist, JList.len])
  refine ⟨⟨h.1, h.1, h.1⟩, h.2.1, ?_, h.2.2.2⟩
  intro f w hf
  exact ⟨h.2.2.1 f w hf, h.2.2.1 f w hf, h.2.2.1 f w hf⟩

/-- C3 (witness): the spec's scenario — a tenant user assigned tenants 7
and 9 reading a configured collection gets `{tenants.tenant in [7, 9]}`. -/
theorem C3_witness :
    readAccess defaultHasAll defaultCookieName "tenants" .missing
      ⟨.jobj (.cons "role" (.jstr "tenant-user")
        (.cons "tenants" (.jarr (jlist [.jobj (.cons "tenant" (.jnum 7) .nil),
          .jobj (.cons "tenant" (.jnum 9) .nil)])) .nil)),
       none, none, none, none⟩ =
      .awhere (tenantInFilter "tenants" (jlist [.jnum 7, .jnum 9])) :=
  (C3_nonelevated_membership_filter defaultHasAll defaultCookieName "tenants"
    ⟨.jobj (.cons "role" (.jstr "tenant-user")
      (.cons "tenants" (.jarr (jlist [.jobj (.cons "tenant" (.jnum 7) .nil),
        .jobj (.cons "tenant" (.jnum 9) .nil)])) .nil)),
     none, none, none, none⟩ (.jnum 7) (.jnum 9) (by decide) (by decide)).1.1

/-! ### C4 -/

/-- C4 (amended): for an elevated user, read/update/delete scope by the
cookie selection only when the selected value is *truthy*: a truthy
selection `v` yields exactly `{fieldName.tenant equals v}` (`AND`-ed with
a structured function-delegate result, with boolean delegate results
ignored), while a falsy selection — absent, `null`, but also the concrete
tenant id `0` or `""` — falls back to the original rule and defaults to
Allow-All. -/
theorem C4_elevated_cookie_scoping (hasAll : JVal → Bool) (cookieName fieldName : String)
    (req : Req) (v : JVal) (h1 : hasAll req.user = true)
    (h2 : getSelectedTenantFromCookie req cookieName = v) :
    (truthy v = true →
      (readAccess hasAll cookieName fieldName .missing req =
          .awhere (tenantEqFilter fieldName v)
        ∧ updateAccess hasAll cookieName fieldName .missing req =
          .awhere (tenantEqFilter fieldName v)
        ∧ deleteAccess hasAll cookieName fieldName .missing req =
          .awhere (tenantEqFilter fieldName v))
      ∧ (∀ r, readAccess hasAll cookieName fieldName (.value r) req =
          .awhere (tenantEqFilter fieldName v))
      ∧ (∀ f w, f req = .awhere w →
          readAccess hasAll cookieName fieldName (.func f) req =
            .awhere (andFilter (tenantEqFilter fieldName v) w)
          ∧ updateAccess hasAll cookieName fieldName (.func f) req =
            .awhere (andFilter (tenantEqFilter fieldName v) w)
          ∧ deleteAccess hasAll cookieName fieldName (.func f) req =
            .awhere (andFilter (tenantEqFilter fieldName v) w))
      ∧ (∀ f b, f req = .abool b →
          readAccess hasAll cookieName fieldName (.func f) req =
            .awhere (tenantEqFilter fieldName v)))
    ∧ (truthy v = false →
      (readAccess hasAll cookieName fieldName .missing req = .abool true
        ∧ updateAccess hasAll cookieName fieldName .missing req = .abool true
        ∧ deleteAccess hasAll cookieName fieldName .missing req = .abool true)
      ∧ (∀ r, readAccess hasAll cookieName fieldName (.value r) req = r)
      ∧ (∀ f, readAccess hasAll cookieName fieldName (.func f) req = f req)) := by
  constructor
  · intro h3
    have h := rudAccess_elevated_selected hasAll cookieName fieldName req v h1 h2 h3
    refine ⟨⟨h.1, h.1, h.1⟩, h.2.1, ?_, h.2.2.2⟩
    intro f w hf
    exact ⟨h.2.2.1 f w hf, h.2.2.1 f w hf, h.2.2.1 f w hf⟩
  · intro h3
    have h := rudAccess_elevated_unselected hasAll cookieName fieldName req h1
      (by rw [h2]; exact h3)
    exact ⟨⟨h.1, h.1, h.1⟩, h.2.1, h.2.2⟩

/-- C4 (counterexample): a super-admin whose cookie selects the concrete
tenant id `0` (cookie header `payload-selected-tenant=0`) does *not* get
the equality filter — the truthiness test treats the selection as absent
and read access is Allow-All. -/
theorem C4_counterexample_tenant_zero :
    getSelectedTenantFromCookie
      ⟨.jobj (.cons "role" (.jstr "super-admin") .nil),
       none, some (.jstr "payload-selected-tenant=0"), none, none⟩
      defaultCookieName = .jnum 0
    ∧ readAccess defaultHasAll defaultCookieName "tenants" .missing
        ⟨.jobj (.cons "role" (.jstr "super-admin") .nil),
         none, some (.jstr "payload-selected-tenant=0"), none, none⟩ = .abool true
    ∧ AccessResult.abool true ≠
        .awhere (tenantEqFilter "tenants" (.jnum 0)) := by
  refine ⟨by decide, by decide, by decide⟩

/-- C4 (witness): the amended theorem applied to a concrete super-admin
with the cookie header `payload-selected-tenant=12; other=x` yields
`{tenants.tenant equals 12}`. -/
theorem C4_witness :
    readAccess defaultHasAll defaultCookieName "tenants" .missing
      ⟨.jobj (.cons "role" (.jstr "super-admin") .nil),
       none, some (.jstr "payload-selected-tenant=12; other=x"), none, none⟩ =
      .awhere (tenantEqFilter "tenants" (.jnum 12)) :=
  (((C4_elevated_cookie_scoping defaultHasAll defaultCookieName "tenants"
    ⟨.jobj (.cons "role" (.jstr "super-admin") .nil),
     none, some (.jstr "payload-selected-tenant=12; other=x"), none, none⟩
    (.jnum 12) (by decide) (by decide)).1 (by decide)).1).1

/-! ### C10 -/

/-- C10 (amended): for a non-elevated user, the four access functions
never consult the cookie themselves, so their decisions agree on two
requests with the same user whenever the delegate rule's own result
agrees on them (in particular whenever no delegate rule exists or the
delegate is a static value); a delegate rule is handed the full request
and *can* reintroduce cookie dependence. -/
theorem C10_cookie_independent_nonelevated (hasAll : JVal → Bool)
    (cookieName fieldName : String) (orig : AccessRule) (req1 req2 : Req)
    (hu : req1.user = req2.user) (h1 : hasAll req1.user = false)
    (hf : ∀ f, orig = .func f → f req1 = f req2) :
    createAccess hasAll orig req1 = createAccess hasAll orig req2
    ∧ readAccess hasAll cookieName fieldName orig req1 =
        readAccess hasAll cookieName fieldName orig req2
    ∧ updateAccess hasAll cookieName fieldName orig req1 =
        updateAccess hasAll cookieName fieldName orig req2
    ∧ deleteAccess hasAll cookieName fieldName orig req1 =
        deleteAccess hasAll cookieName fieldName orig req2 := by
  have h2 : hasAll req2.user = false := by rw [← hu]; exact h1
  have hrud : rudAccess hasAll cookieName fieldName orig req1 =
      rudAccess hasAll cookieName fieldName orig req2 := by
    unfold rudAccess
    simp only [h1, h2, hu, Bool.false_eq_true, if_false]
    by_cases hlen : (extractUserTenantIds req2.user).len > 0
    · simp only [hlen, if_true]
      unfold mergeWithOriginal
      cases orig with
      | missing => rfl
      | value r => rfl
      | func f =>
        dsimp only
        rw [hf f rfl]
    · simp only [hlen, if_false]
  refine ⟨?_, hrud, hrud, hrud⟩
  unfold createAccess
  simp only [h1, h2, Bool.false_eq_true, if_false]
  unfold fallbackToOriginal
  cases orig with
  | missing => rfl
  | value r => rfl
  | func f =>
    dsimp only
    rw [hf f rfl]

/-- C10 (counterexample): a delegate access rule receives the whole
request and may inspect the cookies, so two requests identical except
for `req.cookies` can produce different read decisions even for a
non-elevated user. -/
theorem C10_counterexample_delegate_reads_cookie :
    (let u : JVal := .jobj (.cons "tenants"
        (.jarr (jlist [.jobj (.cons "tenant" (.jnum 7) .nil)])) .nil);
     let f : Req → AccessResult := fun req =>
        match req.cookies with
        | some _ => .abool true
        | none => .awhere (.jobj .nil);
     readAccess (fun _ => false) defaultCookieName "tenants" (.func f)
        ⟨u, none, none, some [(defaultCookieName, "1")], none⟩ ≠
      readAccess (fun _ => false) defaultCookieName "tenants" (.func f)
        ⟨u, none, none, none, none⟩) := by
  decide

/-- C10 (witness): the amended theorem applied to two concrete requests
differing only in cookie data, with no delegate rule. -/
theorem C10_witness :
    readAccess (fun _ => false) defaultCookieName "tenants" .missing
      ⟨.jnull, none, some (.jstr "payload-selected-tenant=1"), none, none⟩ =
    readAccess (fun _ => false) defaultCookieName "tenants" .missing
      ⟨.jnull, none, none, none, none⟩ :=
  (C10_cookie_independent_nonelevated (fun _ => false) defaultCookieName "tenants"
    .missing
    ⟨.jnull, none, some (.jstr "payload-selected-tenant=1"), none, none⟩
    ⟨.jnull, none, none, none, none⟩ rfl rfl
    (fun f h => by cases h)).2.1

/-! ### C2 -/

/-- C2 (amended): the header-based and mapping-based lookup methods
(2, 3 and 4) each treat the literal cookie value `"all"` as no
selection, so with nothing else to match the function returns `null`;
the pre-populated context field (method 1) does *not* apply the
sentinel check — its value is returned verbatim, `"all"` included. -/
theorem C2_all_sentinel (u v : JVal) (hc : Option JVal)
    (cs : Option (List (String × String))) (hg : Option JVal) :
    getSelectedTenantFromCookie ⟨u, some v, hc, cs, hg⟩ defaultCookieName = v
    ∧ getSelectedTenantFromCookie
        ⟨u, none, some (.jstr "payload-selected-tenant=all"), none, none⟩
        defaultCookieName = .jnull
    ∧ getSelectedTenantFromCookie
        ⟨u, none, none, some [("payload-selected-tenant", "all")], none⟩
        defaultCookieName = .jnull
    ∧ getSelectedTenantFromCookie
        ⟨u, none, none, none, some (.jstr "payload-selected-tenant=all")⟩
        defaultCookieName = .jnull :=
  ⟨rfl, rfl, rfl, rfl⟩

/-- C2 (counterexample): when the pre-populated context field supplies
the value `"all"`, `getSelectedTenantFromCookie` returns the string
`"all"`, not the absent sentinel `null`. -/
theorem C2_counterexample_context_all :
    getSelectedTenantFromCookie ⟨.jnull, some (.jstr "all"), none, none, none⟩
      defaultCookieName = .jstr "all"
    ∧ JVal.jstr "all" ≠ .jnull := by
  refine ⟨by decide, by decide⟩

/-! ### C5 -/

/-- C5 (amended): `extractTenantId` is idempotent only on *truthy*
canonical identifiers — a nonzero number or nonempty string is returned
unchanged, but the canonical identifiers `0` and `""` are mapped to
`null` by the falsy-input guard; `{id: 5}`, `{_id: 5}` and `{ID: 5}` all
yield `5`, with `id` tried before `_id` before `ID`; and `null`,
`undefined` and `{}` yield `null`. -/
theorem C5_extractTenantId_characterization (n : Int) (s : String) (fs : JFields)
    (hn : n ≠ 0) (hs : s ≠ "") :
    extractTenantId (.jnum n) = .jnum n
    ∧ extractTenantId (.jstr s) = .jstr s
    ∧ extractTenantId (.jnum 0) = .jnull
    ∧ extractTenantId (.jstr "") = .jnull
    ∧ extractTenantId (.jobj (.cons "id" (.jnum 5) .nil)) = .jnum 5
    ∧ extractTenantId (.jobj (.cons "_id" (.jnum 5) .nil)) = .jnum 5
    ∧ extractTenantId (.jobj (.cons "ID" (.jnum 5) .nil)) = .jnum 5
    ∧ (nullish (jget fs "id") = false →
        extractTenantId (.jobj fs) = jget fs "id")
    ∧ (nullish (jget fs "id") = true → nullish (jget fs "_id") = false →
        extractTenantId (.jobj fs) = jget fs "_id")
    ∧ (nullish (jget fs "id") = true → nullish (jget fs "_id") = true →
        nullish (jget fs "ID") = false →
        extractTenantId (.jobj fs) = jget fs "ID")
    ∧ (nullish (jget fs "id") = true → nullish (jget fs "_id") = true →
        nullish (jget fs "ID") = true →
        extractTenantId (.jobj fs) = .jnull)
    ∧ extractTenantId .jnull = .jnull
    ∧ extractTenantId .jundefined = .jnull
    ∧ extractTenantId (.jobj .nil) = .jnull := by
  refine ⟨?_, ?_, by decide, by decide, by decide, by decide, by decide,
    ?_, ?_, ?_, ?_, by decide, by decide, by decide⟩
  · simp [extractTenantId, truthy, hn]
  · simp [extractTenantId, truthy, hs]
  · intro h1
    simp [extractTenantId, truthy, jcoalesce, h1]
  · intro h1 h2
    simp [extractTenantId, truthy, jcoalesce, h1, h2]
  · intro h1 h2 h3
    simp [extractTenantId, truthy, jcoalesce, h1, h2, h3]
  · intro h1 h2 h3
    simp [extractTenantId, truthy, jcoalesce, h1, h2, h3]

/-- C5 (counterexample): the canonical identifier `0` is not returned
unchanged — `extractTenantId(0)` is `null`. -/
theorem C5_counterexample_zero :
    extractTenantId (.jnum 0) = .jnull ∧ JVal.jnull ≠ .jnum 0 := by
  refine ⟨by decide, by decide⟩

/-- C5 (witness): the amended theorem applied at `n = 5`, `s = "abc"`,
`fs = {id: 5, _id: 6}`. -/
theorem C5_witness :
    extractTenantId (.jnum 5) = .jnum 5
    ∧ extractTenantId
        (.jobj (.cons "id" (.jnum 5) (.cons "_id" (.jnum 6) .nil))) = .jnum 5 :=
  ⟨(C5_extractTenantId_characterization 5 "abc"
      (.cons "id" (.jnum 5) (.cons "_id" (.jnum 6) .nil))
      (by decide) (by decide)).1,
   (C5_extractTenantId_characterization 5 "abc"
      (.cons "id" (.jnum 5) (.cons "_id" (.jnum 6) .nil))
      (by decide) (by decide)).2.2.2.2.2.2.2.1 (by decide)⟩

/-! ### C6 -/

/-- C6 (amended): a matched raw cookie value other than `""` and `"all"`
is interpreted with `parseInt` *prefix* semantics, not round-trip
semantics: a value beginning (after an optional sign) with a decimal
digit yields the integer given by its longest leading digit run, and
only a value with no leading digit at all is returned as the raw
string.  So `"42"` yields `42` and `"tenant-abc"` yields
`"tenant-abc"`, but the non-round-tripping `"42abc"` also yields `42`. -/
theorem C6_parseInt_semantics (u : JVal) (v : String) (h1 : v ≠ "") (h2 : v ≠ "all") :
    getSelectedTenantFromCookie
        ⟨u, none, none, some [(defaultCookieName, v)], none⟩
        defaultCookieName = parsedTenantValue v
    ∧ (∀ (c : Char) (rest : List Char), v.data = c :: rest →
        c.isDigit = false → c ≠ '-' → c ≠ '+' → isSpaceChar c = false →
        parsedTenantValue v = .jstr v)
    ∧ getSelectedTenantFromCookie
        ⟨.jnull, none, some (.jstr "payload-selected-tenant=42"), none, none⟩
        defaultCookieName = .jnum 42
    ∧ getSelectedTenantFromCookie
        ⟨.jnull, none, some (.jstr "payload-selected-tenant=tenant-abc"), none, none⟩
        defaultCookieName = .jstr "tenant-abc"
    ∧ getSelectedTenantFromCookie
        ⟨.jnull, none, some (.jstr "payload-selected-tenant=42abc"), none, none⟩
        defaultCookieName = .jnum 42 := by
  refine ⟨?_, ?_, by decide, by decide, by decide⟩
  · simp [getSelectedTenantFromCookie, getSelectedTenantBody, List.find?, h1, h2]
  · intro c rest hv hdig hminus hplus hspace
    have hsign : splitSign (c :: rest) = (1, c :: rest) := by
      unfold splitSign
      split
      · next r heq =>
        exact absurd (List.head_eq_of_cons_eq heq) hminus
      · next r heq =>
        exact absurd (List.head_eq_of_cons_eq heq) hplus
      · rfl
    unfold parsedTenantValue parseIntJS
    rw [hv, List.dropWhile_cons]
    simp only [hspace, Bool.false_eq_true, if_false, hsign]
    simp [List.takeWhile_cons, hdig]

/-- C6 (counterexample): the cookie value `"42abc"` does not round-trip
as a base-10 integer, yet the function returns the number `42` rather
than the raw string. -/
theorem C6_counterexample_42abc :
    getSelectedTenantFromCookie
      ⟨.jnull, none, some (.jstr "payload-selected-tenant=42abc"), none, none⟩
      defaultCookieName = .jnum 42
    ∧ JVal.jnum 42 ≠ .jstr "42abc" := by
  refine ⟨by decide, by decide⟩

/-- C6 (witness): the amended theorem applied at the concrete value
`"tenant-abc"` through the pre-parsed cookies mapping. -/
theorem C6_witness :
    getSelectedTenantFromCookie
      ⟨.jnull, none, none, some [(defaultCookieName, "tenant-abc")], none⟩
      defaultCookieName = parsedTenantValue "tenant-abc" :=
  (C6_parseInt_semantics .jnull "tenant-abc" (by decide) (by decide)).1

/-! ### C7 -/

/-- C7 (confirmed): `getUserTenantIds` returns the sequence obtained by
normalizing each assignment's tenant reference with `extractTenantId`
and dropping `null` results, and it returns the empty sequence whenever
the store lookup fails, or yields a falsy document or a non-array
`tenants` value — store failures fail closed. -/
theorem C7_membership_lookup (userId : JVal) (findByID : JVal → Except Unit JVal) :
    (∀ e, findByID userId = .error e → getUserTenantIds userId findByID = .nil)
    ∧ (∀ doc ts, findByID userId = .ok doc → truthy doc = true →
        jprop doc "tenants" = .jarr ts →
        getUserTenantIds userId findByID =
          (ts.mapJ (fun t => extractTenantId (jprop t "tenant"))).filterJ
            (fun i => i != JVal.jnull))
    ∧ (∀ doc, findByID userId = .ok doc → isArray (jprop doc "tenants") = false →
        getUserTenantIds userId findByID = .nil) := by
  refine ⟨?_, ?_, ?_⟩
  · intro e he
    simp [getUserTenantIds, he]
  · intro doc ts hok hdoc hts
    simp only [getUserTenantIds, hok, hts, hdoc]
    simp [truthy, isArray]
  · intro doc hok harr
    simp only [getUserTenantIds, hok]
    rcases h : jprop doc "tenants" with _ | _ | b | n | s | xs | fs <;>
      simp [truthy, isArray, h] at harr ⊢

/-- C7 (witness): the theorem applied to a failing store and to a store
returning a user document with assignments `[{tenant: 3}, {tenant: null}]`. -/
theorem C7_witness :
    getUserTenantIds (.jnum 1) (fun _ => .error ()) = .nil
    ∧ getUserTenantIds (.jnum 1)
        (fun _ => .ok (.jobj (.cons "tenants"
          (.jarr (jlist [.jobj (.cons "tenant" (.jnum 3) .nil),
            .jobj (.cons "tenant" .jnull .nil)])) .nil))) = jlist [.jnum 3] :=
  ⟨(C7_membership_lookup (.jnum 1) (fun _ => .error ())).1 () rfl,
   by
    have h := (C7_membership_lookup (.jnum 1)
      (fun _ => .ok (.jobj (.cons "tenants"
        (.jarr (jlist [.jobj (.cons "tenant" (.jnum 3) .nil),
          .jobj (.cons "tenant" .jnull .nil)])) .nil)))).2.1
      (.jobj (.cons "tenants"
        (.jarr (jlist [.jobj (.cons "tenant" (.jnum 3) .nil),
          .jobj (.cons "tenant" .jnull .nil)])) .nil))
      (jlist [.jobj (.cons "tenant" (.jnum 3) .nil),
        .jobj (.cons "tenant" .jnull .nil)]) rfl (by decide) (by decide)
    rw [h]
    decide⟩

/-! ### C8 -/

/-- C8 (confirmed): `getSelectedTenantFromCookie` is total — it is a
function returning a `JVal` for every request; a request missing all
four cookie-access shapes yields `null`, and whenever the unprotected
body would throw, the `try`/`catch` swallows the exception and the
function yields `null`. -/
theorem C8_never_raises (req : Req) (cookieName : String) :
    (req.contextSelectedTenant = none → req.headersCookie = none →
      req.cookies = none → req.headersGet = none →
      getSelectedTenantFromCookie req cookieName = .jnull)
    ∧ (∀ e, getSelectedTenantBody req cookieName = .error e →
      getSelectedTenantFromCookie req cookieName = .jnull) := by
  constructor
  · obtain ⟨u, c, hc, cs, hg⟩ := req
    intro h1 h2 h3 h4
    subst h1; subst h2; subst h3; subst h4
    rfl
  · intro e he
    simp [getSelectedTenantFromCookie, he]

/-- C8 (witness): the theorem applied to a request with none of the four
shapes, and to a request whose truthy non-string cookie header makes the
unprotected body throw. -/
theorem C8_witness :
    getSelectedTenantFromCookie ⟨.jnull, none, none, none, none⟩
      defaultCookieName = .jnull
    ∧ getSelectedTenantFromCookie ⟨.jnull, none, some (.jnum 5), none, none⟩
      defaultCookieName = .jnull :=
  ⟨(C8_never_raises ⟨.jnull, none, none, none, none⟩ defaultCookieName).1
      rfl rfl rfl rfl,
   (C8_never_raises ⟨.jnull, none, some (.jnum 5), none, none⟩
      defaultCookieName).2 () rfl⟩

/-! ### C9 -/

/-- C9 (confirmed): a collection whose slug is not a key of the plugin's
`collections` option passes through `multiTenantPlugin` unchanged —
the entry at its position in the output config is the incoming entry
itself (fields, access rules and all other properties), and the rest of
the config is likewise preserved. -/
theorem C9_unconfigured_collection_unchanged (opts : MultiTenantPluginOptions)
    (cfg : Config) (i : Nat) (c : CollectionEntry)
    (h1 : cfg.collections[i]? = some c)
    (h2 : (opts.collections.getD []).find? (fun p => p.1 == c.slug) = none) :
    (multiTenantPlugin opts cfg).collections[i]? = some c
    ∧ (multiTenantPlugin opts cfg).rest = cfg.rest := by
  constructor
  · show (cfg.collections.map _)[i]? = some c
    rw [List.getElem?_map, h1]
    simp [applyToCollection, h2]
  · rfl

/-- C9 (witness): the theorem applied to the default (empty) plugin
options and a one-collection config. -/
theorem C9_witness :
    (multiTenantPlugin ⟨none, none, none, none, none⟩
      ⟨[⟨"posts", [], ⟨.missing, .missing, .missing, .missing, .jnull⟩, .jnull⟩], .jnull⟩
      ).collections[0]? =
      some ⟨"posts", [], ⟨.missing, .missing, .missing, .missing, .jnull⟩, .jnull⟩ :=
  (C9_unconfigured_collection_unchanged ⟨none, none, none, none, none⟩
    ⟨[⟨"posts", [], ⟨.missing, .missing, .missing, .missing, .jnull⟩, .jnull⟩], .jnull⟩
    0 ⟨"posts", [], ⟨.missing, .missing, .missing, .missing, .jnull⟩, .jnull⟩
    rfl rfl).1

end MT



